import Mathlib

/-
Verification of the Mergington High School activities API (src/app.py)
against its natural-language specification.

The Python source is shallowly embedded below:
pure helpers become Lean functions, the process-wide mutable state
(the `users` store together with its file mirror, and the `activities`
catalogue) becomes explicit state passing, Python exceptions
(`HTTPException`) become `Except` results carrying status code and detail,
and Python byte strings become `List Nat` with every byte below 256.

External collaborators (the `hashlib`, `hmac`, `secrets` and `jwt`
libraries, and the file system) are modelled at the boundary the source
uses them: `hashlib.pbkdf2_hmac("sha256", ...)` is implemented in full
(SHA-256, HMAC-SHA256, PBKDF2), randomness (`secrets.token_bytes`)
becomes an explicit salt parameter, `jwt.encode/decode` becomes a token
record whose structural validity and signature validity are explicit
fields, and the disk becomes an explicit component of the state.
-/

namespace App

/-- An HTTP error response, mirroring FastAPI's `HTTPException` with a
status code and a detail message. -/
structure HTTPError where
  status : Nat
  detail : String
deriving DecidableEq, Repr

/-- A stored credential record, the value type of the `users` mapping in
app.py: a dict with hex-encoded `salt` and `hash` fields. -/
structure Cred where
  salt : String
  hash : String
deriving DecidableEq, Repr

/- ---------------------------------------------------------------------
Hex encoding and decoding, modelling Python's `bytes.hex()` (lowercase
hex, two digits per byte) and `bytes.fromhex`.
--------------------------------------------------------------------- -/

/-- Lowercase hex rendering of a byte list, two digits per byte; this is
Python's `bytes.hex()` as used by `_hash_password`. -/
def hexEncChars : List Nat → List Char
  | [] => []
  | b :: t => Nat.digitChar (b / 16) :: Nat.digitChar (b % 16) :: hexEncChars t

def hexEncode (l : List Nat) : String :=
  String.mk (hexEncChars l)

/-- Numeric value of one lowercase-or-uppercase hex digit; inverse of
`Nat.digitChar` on values below 16. -/
def hexCharVal (c : Char) : Nat :=
  if 97 ≤ c.toNat then c.toNat - 87
  else if 65 ≤ c.toNat then c.toNat - 55
  else c.toNat - 48

/-- Decoding of a hex character list back to bytes, two characters per
byte; this is Python's `bytes.fromhex` on well-formed input (the source
only ever decodes strings produced by `bytes.hex()`). -/
def hexDecChars : List Char → List Nat
  | c1 :: c2 :: t => (hexCharVal c1 * 16 + hexCharVal c2) :: hexDecChars t
  | _ => []

def hexDecode (s : String) : List Nat :=
  hexDecChars s.data

/- ---------------------------------------------------------------------
SHA-256 (FIPS 180-4), the digest underlying `hashlib.pbkdf2_hmac`.
Machine words are Nat reduced modulo 2^32 where overflow matters.
--------------------------------------------------------------------- -/

/-- Word size 2^32 used to reduce the 32-bit arithmetic of SHA-256. -/
def w32 : Nat := 4294967296

/-- Right rotation of a 32-bit word held in a Nat. -/
def rotr (n x : Nat) : Nat :=
  (x >>> n) ||| ((x <<< (32 - n)) % w32)

def sSigma0 (x : Nat) : Nat := rotr 7 x ^^^ rotr 18 x ^^^ (x >>> 3)

def sSigma1 (x : Nat) : Nat := rotr 17 x ^^^ rotr 19 x ^^^ (x >>> 10)

def bSigma0 (x : Nat) : Nat := rotr 2 x ^^^ rotr 13 x ^^^ rotr 22 x

def bSigma1 (x : Nat) : Nat := rotr 6 x ^^^ rotr 11 x ^^^ rotr 25 x

def chBits (e f g : Nat) : Nat := (e &&& f) ^^^ ((e ^^^ 4294967295) &&& g)

def majBits (a b c : Nat) : Nat := (a &&& b) ^^^ (a &&& c) ^^^ (b &&& c)

/-- The 64 SHA-256 round constants (FIPS 180-4 §4.2.2, the fractional
parts of the cube roots of the first 64 primes), written in decimal. -/
def K256 : List Nat :=
  [1116352408, 1899447441, 3049323471, 3921009573, 961987163, 1508970993, 2453635748,
   2870763221, 3624381080, 310598401, 607225278, 1426881987, 1925078388, 2162078206,
   2614888103, 3248222580, 3835390401, 4022224774, 264347078, 604807628, 770255983,
   1249150122, 1555081692, 1996064986, 2554220882, 2821834349, 2952996808, 3210313671,
   3336571891, 3584528711, 113926993, 338241895, 666307205, 773529912, 1294757372,
   1396182291, 1695183700, 1986661051, 2177026350, 2456956037, 2730485921, 2820302411,
   3259730800, 3345764771, 3516065817, 3600352804, 4094571909, 275423344, 430227734,
   506948616, 659060556, 883997877, 958139571, 1322822218, 1537002063, 1747873779,
   1955562222, 2024104815, 2227730452, 2361852424, 2428436474, 2756734187, 3204031479,
   3329325298]

/-- Big-endian packing of bytes into 32-bit words (four bytes per word). -/
def bytesToWords : List Nat → List Nat
  | b0 :: b1 :: b2 :: b3 :: t =>
      (b0 * 16777216 + b1 * 65536 + b2 * 256 + b3) :: bytesToWords t
  | _ => []

/-- Message-schedule extension: appends the next scheduled word `n` times
(48 times for SHA-256, growing the 16 block words to 64). -/
def extendSchedule : List Nat → Nat → List Nat
  | ws, 0 => ws
  | ws, n + 1 =>
      let len := ws.length
      let next := (sSigma1 (ws.getD (len - 2) 0) + ws.getD (len - 7) 0 +
        sSigma0 (ws.getD (len - 15) 0) + ws.getD (len - 16) 0) % w32
      extendSchedule (ws ++ [next]) n

/-- The eight 32-bit working variables of the SHA-256 compression loop. -/
structure HState where
  a : Nat
  b : Nat
  c : Nat
  d : Nat
  e : Nat
  f : Nat
  g : Nat
  h : Nat
deriving DecidableEq, Repr

/-- One SHA-256 round on the working variables, consuming one round
constant paired with one scheduled word. -/
def sha256Round (s : HState) (kw : Nat × Nat) : HState :=
  let t1 := (s.h + bSigma1 s.e + chBits s.e s.f s.g + kw.1 + kw.2) % w32
  let t2 := (bSigma0 s.a + majBits s.a s.b s.c) % w32
  { a := (t1 + t2) % w32, b := s.a, c := s.b, d := s.c,
    e := (s.d + t1) % w32, f := s.e, g := s.f, h := s.g }

/-- SHA-256 compression of one 64-byte block into the running hash. -/
def compressBlock (hs : HState) (block : List Nat) : HState :=
  let ws := extendSchedule (bytesToWords block) 48
  let s := List.foldl sha256Round hs (K256.zip ws)
  { a := (hs.a + s.a) % w32, b := (hs.b + s.b) % w32, c := (hs.c + s.c) % w32,
    d := (hs.d + s.d) % w32, e := (hs.e + s.e) % w32, f := (hs.f + s.f) % w32,
    g := (hs.g + s.g) % w32, h := (hs.h + s.h) % w32 }

/-- SHA-256 padding: a 1-bit (byte 0x80), zero bytes up to 56 mod 64, and
the message length in bits as eight big-endian bytes. -/
def padMessage (msg : List Nat) : List Nat :=
  let len := msg.length
  let k := (119 - len % 64) % 64
  let bitLen := len * 8
  msg ++ [128] ++ List.replicate k 0 ++
    [bitLen / 72057594037927936 % 256, bitLen / 281474976710656 % 256,
     bitLen / 1099511627776 % 256, bitLen / 4294967296 % 256,
     bitLen / 16777216 % 256, bitLen / 65536 % 256, bitLen / 256 % 256, bitLen % 256]

/-- Folds the compression function over the 64-byte blocks of the padded
message; the fuel argument is the exact block count, so every block is
consumed (padding makes the length a multiple of 64). -/
def processChunks (hs : HState) (l : List Nat) : Nat → HState
  | 0 => hs
  | n + 1 => processChunks (compressBlock hs (l.take 64)) (l.drop 64) n

/-- The SHA-256 initial hash value (FIPS 180-4 §5.3.3, the fractional
parts of the square roots of the first 8 primes), written in decimal. -/
def sha256Init : HState :=
  { a := 1779033703, b := 3144134277, c := 1013904242, d := 2773480762,
    e := 1359893119, f := 2600822924, g := 528734635, h := 1541459225 }

/-- Big-endian serialization of one 32-bit word to four bytes. -/
def wordBytes (w : Nat) : List Nat :=
  [w / 16777216 % 256, w / 65536 % 256, w / 256 % 256, w % 256]

/-- SHA-256 of a byte list, producing the 32 digest bytes. -/
def sha256 (msg : List Nat) : List Nat :=
  let p := padMessage msg
  let s := processChunks sha256Init p (p.length / 64)
  wordBytes s.a ++ wordBytes s.b ++ wordBytes s.c ++ wordBytes s.d ++
    wordBytes s.e ++ wordBytes s.f ++ wordBytes s.g ++ wordBytes s.h

/- ---------------------------------------------------------------------
HMAC-SHA256 and PBKDF2, modelling `hashlib.pbkdf2_hmac("sha256", ...)`.
--------------------------------------------------------------------- -/

/-- HMAC-SHA256 (RFC 2104) with the 64-byte SHA-256 block size: the key
is hashed if longer than a block, zero-padded to the block size, and
combined with the inner pad 0x36 and outer pad 0x5c. -/
def hmacSha256 (key msg : List Nat) : List Nat :=
  let k0 := if 64 < key.length then sha256 key else key
  let kp := k0 ++ List.replicate (64 - k0.length) 0
  let ipadKey := kp.map (fun b => b ^^^ 54)
  let opadKey := kp.map (fun b => b ^^^ 92)
  sha256 (opadKey ++ sha256 (ipadKey ++ msg))

/-- Pointwise xor of two byte lists, truncating to the shorter one. -/
def xorBytes : List Nat → List Nat → List Nat
  | a :: as, b :: bs => (a ^^^ b) :: xorBytes as bs
  | _, _ => []

/-- The iteration loop of PBKDF2: runs `n` further HMAC applications,
xoring each U value into the accumulator. -/
def pbkdf2Rounds (pw u acc : List Nat) : Nat → List Nat
  | 0 => acc
  | n + 1 =>
      let u2 := hmacSha256 pw u
      pbkdf2Rounds pw u2 (xorBytes acc u2) n

/-- PBKDF2-HMAC-SHA256 (RFC 2898) for a derived-key length equal to the
32-byte digest size — the case used by the source, where
`hashlib.pbkdf2_hmac("sha256", password, salt, 100000)` leaves `dklen`
at its default (the digest size), so the output is the first block
T1 = U1 xor ... xor Uc with U1 = HMAC(pw, salt || INT(1)).  `hashlib`
rejects iteration counts below 1; the source always passes 100000. -/
def pbkdf2Sha256 (pw salt : List Nat) (c : Nat) : List Nat :=
  let u1 := hmacSha256 pw (salt ++ [0, 0, 0, 1])
  pbkdf2Rounds pw u1 u1 (c - 1)

/- ---------------------------------------------------------------------
The credential hasher of app.py.
--------------------------------------------------------------------- -/

/-- UTF-8 bytes of a string, modelling Python's `password.encode("utf-8")`. -/
def strBytes (s : String) : List Nat :=
  s.toUTF8.toList.map (fun b => b.toNat)

/-- The `_hash_password` helper of app.py.  The source draws a fresh
16-byte salt from `secrets.token_bytes` when no salt is supplied and
decodes a supplied hex salt with `bytes.fromhex`; the randomness is
modelled by passing the salt bytes explicitly (the caller `register_user`
passes the freshly drawn salt, the caller `_verify_password` passes the
decoded stored salt). -/
def _hash_password (password : String) (saltBytes : List Nat) : Cred :=
  let pwdHash := pbkdf2Sha256 (strBytes password) saltBytes 100000
  { salt := hexEncode saltBytes, hash := hexEncode pwdHash }

/-- Python's `hmac.compare_digest` on ASCII strings: a constant-time
comparison whose result is equality (it returns False immediately on a
length mismatch, which coincides with inequality). -/
def compare_digest (a b : String) : Bool := a == b

/-- The `_verify_password` helper of app.py: recompute the hash for the
candidate password with the stored hex salt and compare digests. -/
def _verify_password (password salt expectedHash : String) : Bool :=
  let candidate := _hash_password password (hexDecode salt)
  compare_digest candidate.hash expectedHash

/- ---------------------------------------------------------------------
Token service of app.py (`_create_token`, `_decode_token`).

The JWT wire format (base64url segments, JSON claims, HMAC-SHA256
signature) lives in the third-party PyJWT library, an external
collaborator.  Modelled from the spec (§4.2 Token Service and the §3
token-validity invariant) together with PyJWT's documented behaviour: a
token is represented by its decoded view — whether it is structurally a
well-formed JWT, whether its signature verifies against the server
secret, and its `sub`/`iat`/`exp` claims — and `jwt.decode` raises
`InvalidTokenError` for malformed structure or a failing signature and
`ExpiredSignatureError` when `exp` has passed (exp ≤ now).
--------------------------------------------------------------------- -/

/-- A JWT as seen by the decoder: structural well-formedness, signature
validity against the server secret, and the registered claims. -/
structure JwtToken where
  wellFormed : Bool
  sigValid : Bool
  sub : Option String
  iat : Option Int
  exp : Option Int
deriving DecidableEq, Repr

inductive JwtError where
  | expiredSignature
  | invalidToken
deriving DecidableEq, Repr

/-- Modelled from the spec: PyJWT's `jwt.decode(token, SECRET_KEY,
algorithms=["HS256"])` — segment/structure checks and signature
verification first (failure is `InvalidTokenError`), then the `exp`
claim check (`ExpiredSignatureError` when `exp` ≤ now; the claim is
only checked when present, and the source always includes it). -/
def jwtDecode (t : JwtToken) (now : Int) : Except JwtError JwtToken :=
  if t.wellFormed = false then .error .invalidToken
  else if t.sigValid = false then .error .invalidToken
  else
    match t.exp with
    | some e => if e ≤ now then .error .expiredSignature else .ok t
    | none => .ok t

def TOKEN_EXPIRATION_MINUTES : Int := 60

/-- The `_create_token` helper of app.py: claims
sub/iat/exp = now + 60 minutes, signed with the server secret (hence
`sigValid`), well-formed by construction.  The current time is passed
explicitly. -/
def _create_token (email : String) (now : Int) : JwtToken :=
  { wellFormed := true, sigValid := true, sub := some email,
    iat := some now, exp := some (now + TOKEN_EXPIRATION_MINUTES * 60) }

/-- The `_decode_token` helper of app.py: decodes via PyJWT, maps
`ExpiredSignatureError` to 401 "Token expired" and `InvalidTokenError`
to 401 "Invalid token", and rejects a missing or falsy (empty) `sub`
claim with 401 "Invalid token payload". -/
def _decode_token (t : JwtToken) (now : Int) : Except HTTPError String :=
  match jwtDecode t now with
  | .error .expiredSignature => .error ⟨401, "Token expired"⟩
  | .error .invalidToken => .error ⟨401, "Invalid token"⟩
  | .ok payload =>
    match payload.sub with
    | none => .error ⟨401, "Invalid token payload"⟩
    | some email =>
      if email = "" then .error ⟨401, "Invalid token payload"⟩ else .ok email

/- ---------------------------------------------------------------------
User store of app.py (`_load_users_from_disk`, `_save_users_to_disk`)
and the auth gateway (`register_user`, `login`).

The in-memory `users` dict is an association list preserving insertion
order (Python dict semantics); the persisted file is a second component
of the state.  Disk failures are explicit inputs: reads are summarised
by a `DiskRead` value, writes by a `diskOk` flag (False meaning the
write raises `OSError`, which app.py does not catch).
--------------------------------------------------------------------- -/

/-- Outcome of reading the users file at startup, covering every branch
of `_load_users_from_disk`: the file may be absent, unreadable
(`OSError`), not JSON (`json.JSONDecodeError`), JSON but not an object,
or a JSON object, which `json.load` returns as a mapping. -/
inductive DiskRead where
  | absent
  | ioError
  | badJson
  | nonDict
  | dict (m : List (String × Cred))
deriving DecidableEq

/-- The `_load_users_from_disk` helper of app.py: absent file, `OSError`,
`json.JSONDecodeError` and a non-dict JSON document all fall back to the
empty mapping; a JSON object is returned as the user mapping. -/
def _load_users_from_disk : DiskRead → List (String × Cred)
  | .absent => []
  | .ioError => []
  | .badJson => []
  | .nonDict => []
  | .dict m => m

/-- ASCII lower-casing of one character, the case Python's `str.lower`
performs on the ASCII range (the range email addresses use here). -/
def lowerChar (c : Char) : Char :=
  if 65 ≤ c.toNat ∧ c.toNat ≤ 90 then Char.ofNat (c.toNat + 32) else c

/-- Python's `email.lower()` as used by the register and login handlers,
modelled character-wise over the string. -/
def lowerString (s : String) : String :=
  String.mk (s.data.map lowerChar)

/-- The process state of the auth subsystem: the in-memory `users` dict
and the contents of the persisted users file. -/
structure AuthState where
  users : List (String × Cred)
  disk : List (String × Cred)
deriving DecidableEq

/-- The `_save_users_to_disk` helper of app.py: atomically replaces the
file contents with the full mapping.  `diskOk = false` models the write
raising `OSError`; the temp-file-then-rename sequence then leaves the
previously persisted contents visible. -/
def _save_users_to_disk (st : AuthState) (diskOk : Bool) : AuthState × Bool :=
  if diskOk then ({ st with disk := st.users }, true) else (st, false)

/-- The `POST /auth/register` handler of app.py.  The fresh salt from
`secrets.token_bytes(16)` and the current time are explicit inputs, and
`diskOk` tells whether the `_save_users_to_disk` call succeeds.  The
in-memory insertion happens before the disk write, exactly as in the
source; when the write raises, the exception escapes the handler and
FastAPI surfaces it as a 500 server error, modelled by the error
result. -/
def register_user (st : AuthState) (email password : String)
    (saltBytes : List Nat) (now : Int) (diskOk : Bool) :
    AuthState × Except HTTPError JwtToken :=
  let e := lowerString email
  if password.length < 8 then
    (st, .error ⟨400, "Password must be at least 8 characters"⟩)
  else if (List.lookup e st.users).isSome then
    (st, .error ⟨400, "User already exists"⟩)
  else
    let pwd := _hash_password password saltBytes
    let st1 := { st with users := st.users ++ [(e, pwd)] }
    match _save_users_to_disk st1 diskOk with
    | (st2, true) => (st2, .ok (_create_token e now))
    | (st2, false) => (st2, .error ⟨500, "Internal Server Error"⟩)

/-- The `POST /auth/login` handler of app.py: looks up the lower-cased
email, returns the same 401 "Invalid credentials" both when the user is
absent and when password verification fails, and otherwise issues a
token. -/
def login (st : AuthState) (email password : String) (now : Int) :
    Except HTTPError JwtToken :=
  let e := lowerString email
  match List.lookup e st.users with
  | none => .error ⟨401, "Invalid credentials"⟩
  | some user =>
    if _verify_password password user.salt user.hash then
      .ok (_create_token e now)
    else
      .error ⟨401, "Invalid credentials"⟩

/- ---------------------------------------------------------------------
Activity roster of app.py (`activities`, `signup_for_activity`,
`unregister_from_activity`).
--------------------------------------------------------------------- -/

/-- One activity of the in-memory catalogue: a dict with description,
schedule, max_participants and the participants list. -/
structure Activity where
  description : String
  schedule : String
  max_participants : Nat
  participants : List String
deriving DecidableEq

/-- The activity catalogue, a dict from name to activity modelled as an
insertion-ordered association list. -/
abbrev Activities := List (String × Activity)

/-- The seeded `activities` database of app.py. -/
def activities : Activities :=
  [("Chess Club",
    { description := "Learn strategies and compete in chess tournaments",
      schedule := "Fridays, 3:30 PM - 5:00 PM",
      max_participants := 12,
      participants := ["michael@mergington.edu", "daniel@mergington.edu"] }),
   ("Programming Class",
    { description := "Learn programming fundamentals and build software projects",
      schedule := "Tuesdays and Thursdays, 3:30 PM - 4:30 PM",
      max_participants := 20,
      participants := ["emma@mergington.edu", "sophia@mergington.edu"] }),
   ("Gym Class",
    { description := "Physical education and sports activities",
      schedule := "Mondays, Wednesdays, Fridays, 2:00 PM - 3:00 PM",
      max_participants := 30,
      participants := ["john@mergington.edu", "olivia@mergington.edu"] }),
   ("Soccer Team",
    { description := "Join the school soccer team and compete in matches",
      schedule := "Tuesdays and Thursdays, 4:00 PM - 5:30 PM",
      max_participants := 22,
      participants := ["liam@mergington.edu", "noah@mergington.edu"] }),
   ("Basketball Team",
    { description := "Practice and play basketball with the school team",
      schedule := "Wednesdays and Fridays, 3:30 PM - 5:00 PM",
      max_participants := 15,
      participants := ["ava@mergington.edu", "mia@mergington.edu"] }),
   ("Art Club",
    { description := "Explore your creativity through painting and drawing",
      schedule := "Thursdays, 3:30 PM - 5:00 PM",
      max_participants := 15,
      participants := ["amelia@mergington.edu", "harper@mergington.edu"] }),
   ("Drama Club",
    { description := "Act, direct, and produce plays and performances",
      schedule := "Mondays and Wednesdays, 4:00 PM - 5:30 PM",
      max_participants := 20,
      participants := ["ella@mergington.edu", "scarlett@mergington.edu"] }),
   ("Math Club",
    { description := "Solve challenging problems and participate in math competitions",
      schedule := "Tuesdays, 3:30 PM - 4:30 PM",
      max_participants := 10,
      participants := ["james@mergington.edu", "benjamin@mergington.edu"] }),
   ("Debate Team",
    { description := "Develop public speaking and argumentation skills",
      schedule := "Fridays, 4:00 PM - 5:30 PM",
      max_participants := 12,
      participants := ["charlotte@mergington.edu", "henry@mergington.edu"] })]

/-- In-place mutation of one dict entry (the Python handlers mutate
`activity["participants"]` through the dict reference): replaces the
value stored under `name`, preserving insertion order. -/
def updateActivity (acts : Activities) (name : String) (a : Activity) : Activities :=
  acts.map (fun kv => if kv.1 = name then (kv.1, a) else kv)

/-- The `POST /activities/.../signup` handler of app.py: 404 when the
activity name is unknown, 400 when the authenticated email is already a
participant, otherwise appends the email to the participants list.  The
result pairs the (possibly mutated) catalogue with the HTTP outcome; the
checks precede the mutation, so a failing call leaves the catalogue
untouched. -/
def signup_for_activity (acts : Activities) (activity_name current_user : String) :
    Activities × Except HTTPError String :=
  match List.lookup activity_name acts with
  | none => (acts, .error ⟨404, "Activity not found"⟩)
  | some activity =>
    if current_user ∈ activity.participants then
      (acts, .error ⟨400, "Student is already signed up"⟩)
    else
      (updateActivity acts activity_name
        { activity with participants := activity.participants ++ [current_user] },
       .ok ("Signed up " ++ current_user ++ " for " ++ activity_name))

/-- The `DELETE /activities/.../unregister` handler of app.py: 404 when
the activity name is unknown, 400 when the authenticated email is not a
participant, otherwise removes the first occurrence of the email
(Python's `list.remove`). -/
def unregister_from_activity (acts : Activities) (activity_name current_user : String) :
    Activities × Except HTTPError String :=
  match List.lookup activity_name acts with
  | none => (acts, .error ⟨404, "Activity not found"⟩)
  | some activity =>
    if current_user ∉ activity.participants then
      (acts, .error ⟨400, "Student is not signed up for this activity"⟩)
    else
      (updateActivity acts activity_name
        { activity with participants := activity.participants.erase current_user },
       .ok ("Unregistered " ++ current_user ++ " from " ++ activity_name))

/- ---------------------------------------------------------------------
Helper lemmas: hex round-trips, digest length and byte bounds.
--------------------------------------------------------------------- -/

theorem hexEncChars_length (l : List Nat) : (hexEncChars l).length = 2 * l.length := by
  induction l with
  | nil => rfl
  | cons b t ih => simp only [hexEncChars, List.length_cons, ih]; omega

theorem hexCharVal_digitChar : ∀ n < 16, hexCharVal (Nat.digitChar n) = n := by decide

theorem hexDecChars_hexEncChars (l : List Nat) (h : ∀ b ∈ l, b < 256) :
    hexDecChars (hexEncChars l) = l := by
  induction l with
  | nil => rfl
  | cons b t ih =>
    have hb : b < 256 := h b (List.mem_cons_self b t)
    have hdiv : b / 16 < 16 := by omega
    have hmod : b % 16 < 16 := Nat.mod_lt _ (by omega)
    simp only [hexEncChars, hexDecChars, hexCharVal_digitChar _ hdiv,
      hexCharVal_digitChar _ hmod, ih (fun x hx => h x (List.mem_cons_of_mem _ hx)),
      List.cons.injEq, and_true]
    omega

theorem hexDecode_hexEncode (l : List Nat) (h : ∀ b ∈ l, b < 256) :
    hexDecode (hexEncode l) = l :=
  hexDecChars_hexEncChars l h

theorem hexEncode_inj (l1 l2 : List Nat) (h1 : ∀ b ∈ l1, b < 256)
    (h2 : ∀ b ∈ l2, b < 256) (he : hexEncode l1 = hexEncode l2) : l1 = l2 := by
  have hd := congrArg hexDecode he
  rwa [hexDecode_hexEncode l1 h1, hexDecode_hexEncode l2 h2] at hd

theorem wordBytes_lt (w : Nat) : ∀ b ∈ wordBytes w, b < 256 := by
  intro b hb
  simp only [wordBytes, List.mem_cons, List.not_mem_nil, or_false] at hb
  rcases hb with rfl | rfl | rfl | rfl <;> exact Nat.mod_lt _ (by omega)

theorem sha256_length (m : List Nat) : (sha256 m).length = 32 := by
  simp [sha256, wordBytes]

theorem sha256_lt (m : List Nat) : ∀ b ∈ sha256 m, b < 256 := by
  intro b hb
  simp only [sha256, List.mem_append] at hb
  rcases hb with ((((((h | h) | h) | h) | h) | h) | h) | h <;> exact wordBytes_lt _ _ h

theorem hmacSha256_length (k m : List Nat) : (hmacSha256 k m).length = 32 := by
  unfold hmacSha256
  exact sha256_length _

theorem hmacSha256_lt (k m : List Nat) : ∀ b ∈ hmacSha256 k m, b < 256 := by
  unfold hmacSha256
  exact sha256_lt _

theorem xorBytes_length (a : List Nat) : ∀ b : List Nat,
    (xorBytes a b).length = min a.length b.length := by
  induction a with
  | nil => intro b; cases b <;> simp [xorBytes]
  | cons x xs ih =>
    intro b
    cases b with
    | nil => simp [xorBytes]
    | cons y ys => simp only [xorBytes, List.length_cons, ih ys]; omega

theorem xorBytes_lt (a : List Nat) : ∀ b : List Nat, (∀ x ∈ a, x < 256) →
    (∀ x ∈ b, x < 256) → ∀ x ∈ xorBytes a b, x < 256 := by
  induction a with
  | nil => intro b _ _ x hx; cases b <;> simp [xorBytes] at hx
  | cons a0 as ih =>
    intro b ha hb x hx
    cases b with
    | nil => simp [xorBytes] at hx
    | cons b0 bs =>
      simp only [xorBytes, List.mem_cons] at hx
      rcases hx with rfl | hx
      · have h1 : a0 < 2 ^ 8 := ha a0 (List.mem_cons_self _ _)
        have h2 : b0 < 2 ^ 8 := hb b0 (List.mem_cons_self _ _)
        exact Nat.xor_lt_two_pow h1 h2
      · exact ih bs (fun y hy => ha y (List.mem_cons_of_mem _ hy))
          (fun y hy => hb y (List.mem_cons_of_mem _ hy)) x hx

theorem pbkdf2Rounds_length (pw : List Nat) :
    ∀ (n : Nat) (u acc : List Nat), acc.length = 32 →
      (pbkdf2Rounds pw u acc n).length = 32 := by
  intro n
  induction n with
  | zero => intro u acc h; exact h
  | succ n ih =>
    intro u acc h
    simp only [pbkdf2Rounds]
    apply ih
    rw [xorBytes_length, h, hmacSha256_length]
    exact min_self 32

theorem pbkdf2Rounds_lt (pw : List Nat) :
    ∀ (n : Nat) (u acc : List Nat), (∀ b ∈ acc, b < 256) →
      ∀ b ∈ pbkdf2Rounds pw u acc n, b < 256 := by
  intro n
  induction n with
  | zero => intro u acc h; exact h
  | succ n ih =>
    intro u acc h
    simp only [pbkdf2Rounds]
    exact ih _ _ (xorBytes_lt _ _ h (hmacSha256_lt _ _))

theorem pbkdf2Sha256_length (pw salt : List Nat) (c : Nat) :
    (pbkdf2Sha256 pw salt c).length = 32 := by
  unfold pbkdf2Sha256
  exact pbkdf2Rounds_length pw _ _ _ (hmacSha256_length _ _)

theorem pbkdf2Sha256_lt (pw salt : List Nat) (c : Nat) :
    ∀ b ∈ pbkdf2Sha256 pw salt c, b < 256 := by
  unfold pbkdf2Sha256
  exact pbkdf2Rounds_lt pw _ _ _ (hmacSha256_lt _ _)

/-- Round-trip of the credential hasher: verifying a password against the
salt and hash that `_hash_password` produced for it succeeds, for every
well-formed (byte-valued) salt. -/
theorem verify_hash_roundtrip (p : String) (salt : List Nat)
    (hs : ∀ b ∈ salt, b < 256) :
    _verify_password p (_hash_password p salt).salt (_hash_password p salt).hash = true := by
  simp only [_verify_password, _hash_password, compare_digest]
  rw [hexDecode_hexEncode salt hs]
  simp

/-- Verification against a hash produced from salt `salt` fails exactly
when the candidate password derives a different digest. -/
theorem verify_eq_false_iff (p2 : String) (salt d : List Nat)
    (hs : ∀ b ∈ salt, b < 256) (hd : ∀ b ∈ d, b < 256) :
    (_verify_password p2 (hexEncode salt) (hexEncode d) = false ↔
      pbkdf2Sha256 (strBytes p2) salt 100000 ≠ d) := by
  simp only [_verify_password, _hash_password, compare_digest]
  rw [hexDecode_hexEncode salt hs, beq_eq_false_iff_ne]
  constructor
  · intro hne he
    exact hne (congrArg hexEncode he)
  · intro hne he
    exact hne (hexEncode_inj _ _ (pbkdf2Sha256_lt _ _ _) hd he)

/-- Verification against an empty stored hash always fails: the
recomputed digest renders as 64 hex characters, never the empty string. -/
theorem hexEncode_data (l : List Nat) : (hexEncode l).data = hexEncChars l := rfl

theorem verify_empty_hash_false (p s : String) : _verify_password p s "" = false := by
  simp only [_verify_password, _hash_password, compare_digest]
  rw [beq_eq_false_iff_ne]
  intro h
  have hlen := congrArg (fun t : String => t.data.length) h
  simp only at hlen
  rw [hexEncode_data, hexEncChars_length, pbkdf2Sha256_length] at hlen
  have h0 : ("" : String).data.length = 0 := rfl
  rw [h0] at hlen
  omega

/-- Base-256 value of a byte list, used to embed fixed-length digests
into a finite type for the pigeonhole argument. -/
def byteCode : List Nat → Nat
  | [] => 0
  | b :: t => b + 256 * byteCode t

theorem byteCode_lt (l : List Nat) (h : ∀ b ∈ l, b < 256) :
    byteCode l < 256 ^ l.length := by
  induction l with
  | nil => simp [byteCode]
  | cons b t ih =>
    have hb : b < 256 := h b (List.mem_cons_self b t)
    have ht := ih (fun x hx => h x (List.mem_cons_of_mem _ hx))
    simp only [byteCode, List.length_cons, pow_succ]
    omega

theorem byteCode_inj (l1 : List Nat) : ∀ l2 : List Nat, (∀ b ∈ l1, b < 256) →
    (∀ b ∈ l2, b < 256) → l1.length = l2.length → byteCode l1 = byteCode l2 →
    l1 = l2 := by
  induction l1 with
  | nil => intro l2 _ _ hlen _; cases l2 with
    | nil => rfl
    | cons => simp at hlen
  | cons b t ih =>
    intro l2 h1 h2 hlen hc
    cases l2 with
    | nil => simp at hlen
    | cons b2 t2 =>
      have hb : b < 256 := h1 b (List.mem_cons_self _ _)
      have hb2 : b2 < 256 := h2 b2 (List.mem_cons_self _ _)
      simp only [byteCode] at hc
      have hhead : b = b2 ∧ byteCode t = byteCode t2 := by omega
      have htail := ih t2 (fun x hx => h1 x (List.mem_cons_of_mem _ hx))
        (fun x hx => h2 x (List.mem_cons_of_mem _ hx))
        (by simpa using hlen) hhead.2
      rw [hhead.1, htail]

/- ---------------------------------------------------------------------
Helper lemmas: association-list lookup and update.
--------------------------------------------------------------------- -/

theorem lookup_cons_self {β : Type} (k : String) (v : β) (t : List (String × β)) :
    List.lookup k ((k, v) :: t) = some v := by
  simp [List.lookup]

theorem lookup_cons_ne {β : Type} (k a : String) (v : β) (t : List (String × β))
    (h : a ≠ k) : List.lookup a ((k, v) :: t) = List.lookup a t := by
  have hb : (a == k) = false := beq_eq_false_iff_ne.mpr h
  simp [List.lookup, hb]

theorem lookup_append_of_none {β : Type} (a : String) (l1 l2 : List (String × β))
    (h : List.lookup a l1 = none) : List.lookup a (l1 ++ l2) = List.lookup a l2 := by
  induction l1 with
  | nil => rfl
  | cons kv t ih =>
    obtain ⟨k, v⟩ := kv
    by_cases hk : a = k
    · subst hk
      rw [lookup_cons_self] at h
      exact absurd h (by simp)
    · rw [lookup_cons_ne _ _ _ _ hk] at h
      rw [List.cons_append, lookup_cons_ne _ _ _ _ hk]
      exact ih h

theorem lookup_updateActivity_self (acts : Activities) (name : String) (a : Activity) :
    ∀ a0, List.lookup name acts = some a0 →
      List.lookup name (updateActivity acts name a) = some a := by
  induction acts with
  | nil => intro a0 h; simp [List.lookup] at h
  | cons kv t ih =>
    intro a0 h
    obtain ⟨k, v⟩ := kv
    by_cases hk : k = name
    · subst hk
      simp only [updateActivity, List.map_cons, if_true, eq_self_iff_true]
      exact lookup_cons_self k a _
    · have hne : name ≠ k := fun he => hk he.symm
      rw [lookup_cons_ne _ _ _ _ hne] at h
      simp only [updateActivity, List.map_cons, if_neg hk]
      rw [lookup_cons_ne _ _ _ _ hne]
      exact ih a0 h

theorem lookup_updateActivity_ne (acts : Activities) (name other : String) (a : Activity)
    (h : other ≠ name) :
    List.lookup other (updateActivity acts name a) = List.lookup other acts := by
  induction acts with
  | nil => rfl
  | cons kv t ih =>
    obtain ⟨k, v⟩ := kv
    by_cases hk : k = name
    · subst hk
      have hne : other ≠ k := h
      simp only [updateActivity, List.map_cons, if_true, eq_self_iff_true]
      rw [lookup_cons_ne _ _ _ _ hne, lookup_cons_ne _ _ _ _ hne]
      simpa [updateActivity] using ih
    · simp only [updateActivity, List.map_cons, if_neg hk]
      by_cases ho : other = k
      · subst ho
        rw [lookup_cons_self, lookup_cons_self]
      · rw [lookup_cons_ne _ _ _ _ ho, lookup_cons_ne _ _ _ _ ho]
        simpa [updateActivity] using ih

/- ---------------------------------------------------------------------
Helper lemmas: case equations of the signup and unregister handlers.
--------------------------------------------------------------------- -/

theorem signup_none_eq (acts : Activities) (name email : String)
    (h : List.lookup name acts = none) :
    signup_for_activity acts name email = (acts, .error ⟨404, "Activity not found"⟩) := by
  simp [signup_for_activity, h]

theorem signup_mem_eq (acts : Activities) (name email : String) (a : Activity)
    (h : List.lookup name acts = some a) (hm : email ∈ a.participants) :
    signup_for_activity acts name email =
      (acts, .error ⟨400, "Student is already signed up"⟩) := by
  simp [signup_for_activity, h, hm]

theorem signup_notmem_eq (acts : Activities) (name email : String) (a : Activity)
    (h : List.lookup name acts = some a) (hm : email ∉ a.participants) :
    signup_for_activity acts name email =
      (updateActivity acts name { a with participants := a.participants ++ [email] },
       .ok ("Signed up " ++ email ++ " for " ++ name)) := by
  simp [signup_for_activity, h, hm]

theorem unregister_none_eq (acts : Activities) (name email : String)
    (h : List.lookup name acts = none) :
    unregister_from_activity acts name email = (acts, .error ⟨404, "Activity not found"⟩) := by
  simp [unregister_from_activity, h]

theorem unregister_notmem_eq (acts : Activities) (name email : String) (a : Activity)
    (h : List.lookup name acts = some a) (hm : email ∉ a.participants) :
    unregister_from_activity acts name email =
      (acts, .error ⟨400, "Student is not signed up for this activity"⟩) := by
  simp [unregister_from_activity, h, hm]

theorem unregister_mem_eq (acts : Activities) (name email : String) (a : Activity)
    (h : List.lookup name acts = some a) (hm : email ∈ a.participants) :
    unregister_from_activity acts name email =
      (updateActivity acts name { a with participants := a.participants.erase email },
       .ok ("Unregistered " ++ email ++ " from " ++ name)) := by
  simp [unregister_from_activity, h, hm]

theorem erase_append_singleton (l : List String) (e : String) (h : e ∉ l) :
    (l ++ [e]).erase e = l := by
  rw [List.erase_append_right _ h]
  simp

/- ---------------------------------------------------------------------
Claim theorems about the activity roster.
--------------------------------------------------------------------- -/

/-- C2: for every catalogue state, activity name and authenticated email,
signup fails with 404 "Activity not found" when the name is not in the
catalogue, fails with 400 "Student is already signed up" when the email
is already in that activity's participants, and otherwise succeeds and
appends the email at the end of the participants list, preserving the
insertion order of the existing participants. -/
theorem signup_for_activity_spec (acts : Activities) (name email : String) :
    (List.lookup name acts = none →
      signup_for_activity acts name email = (acts, .error ⟨404, "Activity not found"⟩)) ∧
    (∀ a, List.lookup name acts = some a → email ∈ a.participants →
      signup_for_activity acts name email =
        (acts, .error ⟨400, "Student is already signed up"⟩)) ∧
    (∀ a, List.lookup name acts = some a → email ∉ a.participants →
      (signup_for_activity acts name email).2 =
        .ok ("Signed up " ++ email ++ " for " ++ name) ∧
      List.lookup name (signup_for_activity acts name email).1 =
        some { a with participants := a.participants ++ [email] }) := by
  refine ⟨fun h => signup_none_eq acts name email h,
    fun a h hm => signup_mem_eq acts name email a h hm, fun a h hm => ?_⟩
  rw [signup_notmem_eq acts name email a h hm]
  exact ⟨rfl, lookup_updateActivity_self acts name _ a h⟩

/-- C9 (frame): signup and unregister leave every activity other than the
named one unchanged, and leave the named activity's description, schedule
and max_participants unchanged, whether they succeed or fail. -/
theorem signup_unregister_frame (acts : Activities) (name email : String) :
    (∀ other, other ≠ name →
      List.lookup other (signup_for_activity acts name email).1 =
        List.lookup other acts) ∧
    (∀ other, other ≠ name →
      List.lookup other (unregister_from_activity acts name email).1 =
        List.lookup other acts) ∧
    (∀ a a2, List.lookup name acts = some a →
      List.lookup name (signup_for_activity acts name email).1 = some a2 →
      a2.description = a.description ∧ a2.schedule = a.schedule ∧
        a2.max_participants = a.max_participants) ∧
    (∀ a a2, List.lookup name acts = some a →
      List.lookup name (unregister_from_activity acts name email).1 = some a2 →
      a2.description = a.description ∧ a2.schedule = a.schedule ∧
        a2.max_participants = a.max_participants) := by
  refine ⟨?_, ?_, ?_, ?_⟩
  · intro other ho
    rcases hl : List.lookup name acts with _ | a
    · rw [signup_none_eq acts name email hl]
    · by_cases hm : email ∈ a.participants
      · rw [signup_mem_eq acts name email a hl hm]
      · rw [signup_notmem_eq acts name email a hl hm]
        exact lookup_updateActivity_ne acts name other _ ho
  · intro other ho
    rcases hl : List.lookup name acts with _ | a
    · rw [unregister_none_eq acts name email hl]
    · by_cases hm : email ∈ a.participants
      · rw [unregister_mem_eq acts name email a hl hm]
        exact lookup_updateActivity_ne acts name other _ ho
      · rw [unregister_notmem_eq acts name email a hl hm]
  · intro a a2 ha h2
    by_cases hm : email ∈ a.participants
    · rw [signup_mem_eq acts name email a ha hm] at h2
      dsimp only at h2
      rw [ha] at h2
      obtain rfl := Option.some.inj h2
      exact ⟨rfl, rfl, rfl⟩
    · rw [signup_notmem_eq acts name email a ha hm] at h2
      dsimp only at h2
      rw [lookup_updateActivity_self acts name _ a ha] at h2
      obtain rfl := Option.some.inj h2
      exact ⟨rfl, rfl, rfl⟩
  · intro a a2 ha h2
    by_cases hm : email ∈ a.participants
    · rw [unregister_mem_eq acts name email a ha hm] at h2
      dsimp only at h2
      rw [lookup_updateActivity_self acts name _ a ha] at h2
      obtain rfl := Option.some.inj h2
      exact ⟨rfl, rfl, rfl⟩
    · rw [unregister_notmem_eq acts name email a ha hm] at h2
      dsimp only at h2
      rw [ha] at h2
      obtain rfl := Option.some.inj h2
      exact ⟨rfl, rfl, rfl⟩

/-- C10 (round-trip): for an existing activity and an email not yet on
its roster, signup followed by unregister restores the activity exactly —
in particular its participants list — to its original value. -/
theorem signup_unregister_roundtrip (acts : Activities) (name email : String)
    (a : Activity) (h : List.lookup name acts = some a)
    (hm : email ∉ a.participants) :
    List.lookup name
      (unregister_from_activity (signup_for_activity acts name email).1 name email).1 =
      some a := by
  rw [signup_notmem_eq acts name email a h hm]
  dsimp only
  have h1 := lookup_updateActivity_self acts name
    { a with participants := a.participants ++ [email] } a h
  have hmem : email ∈ ({ a with participants := a.participants ++ [email] } :
      Activity).participants := by simp
  rw [unregister_mem_eq _ name email _ h1 hmem]
  dsimp only
  rw [erase_append_singleton _ _ hm]
  exact lookup_updateActivity_self _ name _ _ h1

/-- C1 (amended): the capacity bound is not enforced on signup.  On an
activity whose participants list already has exactly max_participants
entries, a signup of a fresh email still succeeds and appends, leaving
max_participants + 1 participants, which strictly exceeds the bound; the
duplicate-freedom half of the roster invariant is preserved. -/
theorem signup_at_capacity_appends (acts : Activities) (name email : String)
    (a : Activity) (h : List.lookup name acts = some a)
    (hm : email ∉ a.participants)
    (hcap : a.participants.length = a.max_participants) :
    (signup_for_activity acts name email).2 =
      .ok ("Signed up " ++ email ++ " for " ++ name) ∧
    (∀ a2, List.lookup name (signup_for_activity acts name email).1 = some a2 →
      a2.participants.length = a.max_participants + 1 ∧
      a.max_participants < a2.participants.length ∧
      (a.participants.Nodup → a2.participants.Nodup)) := by
  rw [signup_notmem_eq acts name email a h hm]
  refine ⟨rfl, ?_⟩
  intro a2 h2
  dsimp only at h2
  rw [lookup_updateActivity_self acts name _ a h] at h2
  obtain rfl := Option.some.inj h2
  refine ⟨by simp [hcap], by simp [hcap], ?_⟩
  intro hnd
  simp [List.nodup_append, hnd, hm]

/-- State reached from the seeded catalogue by nine successful signups of
distinct fresh emails for "Math Club" (seeded with 2 of a maximum of 10
participants): the reference signup logic never checks the capacity, so
all nine signups append. -/
def overfullState : Activities :=
  List.foldl (fun st e => (signup_for_activity st "Math Club" e).1) activities
    ["m1@mergington.edu", "m2@mergington.edu", "m3@mergington.edu",
     "m4@mergington.edu", "m5@mergington.edu", "m6@mergington.edu",
     "m7@mergington.edu", "m8@mergington.edu", "m9@mergington.edu"]

/-- C1 (counterexample): after a concrete sequence of signup mutations
starting from the seeded catalogue, "Math Club" holds 11 participants
against a max_participants of 10, so the invariant
len(participants) ≤ max_participants does not hold after every mutation:
signup on a full activity appends another participant. -/
theorem capacity_invariant_counterexample :
    (List.lookup "Math Club" overfullState).map
      (fun a => (a.max_participants, a.participants.length)) = some (10, 11) := by
  decide

/-- A two-slot demonstration activity already at capacity. -/
def fullDemoActivity : Activity :=
  { description := "d", schedule := "s", max_participants := 2,
    participants := ["a@mergington.edu", "b@mergington.edu"] }

/-- The seeded Chess Club entry. -/
def chessSeed : Activity :=
  { description := "Learn strategies and compete in chess tournaments",
    schedule := "Fridays, 3:30 PM - 5:00 PM", max_participants := 12,
    participants := ["michael@mergington.edu", "daniel@mergington.edu"] }

/-- The seeded Chess Club entry with amy appended. -/
def chessWithAmy : Activity :=
  { description := "Learn strategies and compete in chess tournaments",
    schedule := "Fridays, 3:30 PM - 5:00 PM", max_participants := 12,
    participants := ["michael@mergington.edu", "daniel@mergington.edu",
      "amy@mergington.edu"] }

/-- The seeded Chess Club entry with michael removed. -/
def chessNoMichael : Activity :=
  { description := "Learn strategies and compete in chess tournaments",
    schedule := "Fridays, 3:30 PM - 5:00 PM", max_participants := 12,
    participants := ["daniel@mergington.edu"] }

/-- Witness for the amended C1 theorem at a concrete at-capacity roster:
an activity holding 2 of at most 2 participants still accepts a third. -/
theorem signup_at_capacity_appends_witness :
    (signup_for_activity [("Art Club", fullDemoActivity)]
        "Art Club" "c@mergington.edu").2 =
      .ok ("Signed up " ++ "c@mergington.edu" ++ " for " ++ "Art Club") ∧
    ({ fullDemoActivity with participants :=
        fullDemoActivity.participants ++ ["c@mergington.edu"] }).participants.length =
      2 + 1 := by
  have h := signup_at_capacity_appends [("Art Club", fullDemoActivity)]
    "Art Club" "c@mergington.edu" fullDemoActivity (by decide) (by decide) (by decide)
  refine ⟨h.1, ?_⟩
  exact (h.2 { fullDemoActivity with participants :=
      fullDemoActivity.participants ++ ["c@mergington.edu"] } (by decide)).1

/-- Witness for C2 on the seeded catalogue: an unknown activity yields
404, a duplicate signup yields 400, and a fresh signup appends at the
end of the Chess Club roster. -/
theorem signup_for_activity_spec_witness :
    signup_for_activity activities "Quidditch Club" "amy@mergington.edu" =
      (activities, .error ⟨404, "Activity not found"⟩) ∧
    signup_for_activity activities "Chess Club" "michael@mergington.edu" =
      (activities, .error ⟨400, "Student is already signed up"⟩) ∧
    (signup_for_activity activities "Chess Club" "amy@mergington.edu").2 =
      .ok ("Signed up " ++ "amy@mergington.edu" ++ " for " ++ "Chess Club") ∧
    List.lookup "Chess Club"
        (signup_for_activity activities "Chess Club" "amy@mergington.edu").1 =
      some { chessSeed with participants := chessSeed.participants ++ ["amy@mergington.edu"] } := by
  refine ⟨(signup_for_activity_spec activities "Quidditch Club" "amy@mergington.edu").1
      (by decide),
    (signup_for_activity_spec activities "Chess Club" "michael@mergington.edu").2.1
      chessSeed (by decide) (by decide), ?_, ?_⟩
  · exact ((signup_for_activity_spec activities "Chess Club" "amy@mergington.edu").2.2
      chessSeed (by decide) (by decide)).1
  · exact ((signup_for_activity_spec activities "Chess Club" "amy@mergington.edu").2.2
      chessSeed (by decide) (by decide)).2

/-- Witness for C9 on the seeded catalogue: mutating Chess Club leaves
Gym Class untouched, and leaves Chess Club's max_participants intact. -/
theorem signup_unregister_frame_witness :
    List.lookup "Gym Class"
        (signup_for_activity activities "Chess Club" "amy@mergington.edu").1 =
      List.lookup "Gym Class" activities ∧
    List.lookup "Gym Class"
        (unregister_from_activity activities "Chess Club" "michael@mergington.edu").1 =
      List.lookup "Gym Class" activities ∧
    chessWithAmy.max_participants = chessSeed.max_participants ∧
    chessNoMichael.max_participants = chessSeed.max_participants := by
  refine ⟨(signup_unregister_frame activities "Chess Club" "amy@mergington.edu").1
      "Gym Class" (by decide),
    (signup_unregister_frame activities "Chess Club" "michael@mergington.edu").2.1
      "Gym Class" (by decide), ?_, ?_⟩
  · exact ((signup_unregister_frame activities "Chess Club" "amy@mergington.edu").2.2.1
      chessSeed chessWithAmy (by decide) (by decide)).2.2
  · exact ((signup_unregister_frame activities "Chess Club"
      "michael@mergington.edu").2.2.2 chessSeed chessNoMichael
      (by decide) (by decide)).2.2

/-- Witness for C10 on the seeded catalogue: signing amy up for Chess
Club and then unregistering her restores the seeded Chess Club entry. -/
theorem signup_unregister_roundtrip_witness :
    List.lookup "Chess Club"
      (unregister_from_activity
        (signup_for_activity activities "Chess Club" "amy@mergington.edu").1
        "Chess Club" "amy@mergington.edu").1 = some chessSeed :=
  signup_unregister_roundtrip activities "Chess Club" "amy@mergington.edu"
    chessSeed (by decide) (by decide)

/- ---------------------------------------------------------------------
Claim theorems about the auth gateway and the user store.
--------------------------------------------------------------------- -/

/-- Equation of a successful registration: the new credential record is
appended to the in-memory mapping under the lower-cased email, the full
mapping is persisted, and a token for the normalized email is issued. -/
theorem register_ok_eq (st : AuthState) (email password : String)
    (saltBytes : List Nat) (now : Int) (hlen : ¬ password.length < 8)
    (habs : List.lookup (lowerString email) st.users = none) :
    register_user st email password saltBytes now true =
      ({ users := st.users ++ [(lowerString email, _hash_password password saltBytes)],
         disk := st.users ++ [(lowerString email, _hash_password password saltBytes)] },
       .ok (_create_token (lowerString email) now)) := by
  simp [register_user, hlen, habs, _save_users_to_disk]

/-- C7: the startup load is total — for an absent, unreadable or corrupt
(non-JSON or non-object) users file it returns the empty mapping instead
of raising, and for a persisted JSON object it returns that mapping. -/
theorem load_users_total_spec :
    (∀ m, _load_users_from_disk (.dict m) = m) ∧
    _load_users_from_disk .absent = [] ∧
    _load_users_from_disk .ioError = [] ∧
    _load_users_from_disk .badJson = [] ∧
    _load_users_from_disk .nonDict = [] :=
  ⟨fun _ => rfl, rfl, rfl, rfl, rfl⟩

/-- C8: when the disk write raises during an otherwise valid
registration, the error propagates out of the handler as a 500 server
error and no success token is returned. -/
theorem register_disk_failure_spec (st : AuthState) (email password : String)
    (saltBytes : List Nat) (now : Int)
    (hlen : 8 ≤ password.length)
    (habs : List.lookup (lowerString email) st.users = none) :
    (register_user st email password saltBytes now false).2 =
      .error ⟨500, "Internal Server Error"⟩ ∧
    ∀ tk, (register_user st email password saltBytes now false).2 ≠ .ok tk := by
  have h1 : ¬ password.length < 8 := by omega
  have h2 : register_user st email password saltBytes now false =
      ({ users := st.users ++ [(lowerString email, _hash_password password saltBytes)],
         disk := st.disk },
       .error ⟨500, "Internal Server Error"⟩) := by
    simp [register_user, h1, habs, _save_users_to_disk]
  rw [h2]
  exact ⟨rfl, fun tk h => by simp at h⟩

/-- C6: login answers with the identical 401 "Invalid credentials" error
both when the normalized email is absent from the store and when the
stored password verification fails, and otherwise issues a token for the
normalized email. -/
theorem login_uniform_invalid_credentials (st : AuthState)
    (email password : String) (now : Int) :
    (List.lookup (lowerString email) st.users = none →
      login st email password now = .error ⟨401, "Invalid credentials"⟩) ∧
    (∀ u, List.lookup (lowerString email) st.users = some u →
      _verify_password password u.salt u.hash = false →
      login st email password now = .error ⟨401, "Invalid credentials"⟩) ∧
    (∀ u, List.lookup (lowerString email) st.users = some u →
      _verify_password password u.salt u.hash = true →
      login st email password now = .ok (_create_token (lowerString email) now)) := by
  refine ⟨fun h => by simp [login, h], fun u h hv => by simp [login, h, hv],
    fun u h hv => by simp [login, h, hv]⟩

/-- C5: emails are normalized to lower case before lookup and storage:
after a successful registration of an email, registering any case
variant of it fails with 400 "User already exists", and logging in with
a case variant and the original password succeeds and issues a token
for the normalized email. -/
theorem register_case_insensitive_spec (st : AuthState) (e1 e2 p1 p2 : String)
    (salt1 salt2 : List Nat) (now1 now2 now3 : Int) (dk : Bool)
    (hvariant : lowerString e2 = lowerString e1)
    (hsalt : ∀ b ∈ salt1, b < 256)
    (hp1 : 8 ≤ p1.length) (hp2 : 8 ≤ p2.length)
    (habs : List.lookup (lowerString e1) st.users = none) :
    (register_user st e1 p1 salt1 now1 true).2 =
      .ok (_create_token (lowerString e1) now1) ∧
    (register_user (register_user st e1 p1 salt1 now1 true).1 e2 p2 salt2 now2 dk).2 =
      .error ⟨400, "User already exists"⟩ ∧
    login (register_user st e1 p1 salt1 now1 true).1 e2 p1 now3 =
      .ok (_create_token (lowerString e1) now3) := by
  have hl1 : ¬ p1.length < 8 := by omega
  have hl2 : ¬ p2.length < 8 := by omega
  rw [register_ok_eq st e1 p1 salt1 now1 hl1 habs]
  dsimp only
  have hfound : List.lookup (lowerString e2)
      (st.users ++ [(lowerString e1, _hash_password p1 salt1)]) =
      some (_hash_password p1 salt1) := by
    rw [hvariant, lookup_append_of_none _ _ _ habs, lookup_cons_self]
  have hfound1 : List.lookup (lowerString e1)
      (st.users ++ [(lowerString e1, _hash_password p1 salt1)]) =
      some (_hash_password p1 salt1) := by
    rw [lookup_append_of_none _ _ _ habs, lookup_cons_self]
  refine ⟨rfl, ?_, ?_⟩
  · simp [register_user, hl2, hfound]
  · simp [login, hvariant, hfound1, verify_hash_roundtrip p1 salt1 hsalt]

/-- Witness for C5: registering "A@x.com" and then registering "a@X.com"
fails with "User already exists", while logging in as "a@X.com" with the
original password succeeds. -/
theorem register_case_insensitive_spec_witness :
    (register_user ⟨[], []⟩ "A@x.com" "longenough1" (List.replicate 16 0) 0 true).2 =
      .ok (_create_token (lowerString "A@x.com") 0) ∧
    (register_user (register_user ⟨[], []⟩ "A@x.com" "longenough1"
        (List.replicate 16 0) 0 true).1 "a@X.com" "longenough2" [] 1 true).2 =
      .error ⟨400, "User already exists"⟩ ∧
    login (register_user ⟨[], []⟩ "A@x.com" "longenough1"
        (List.replicate 16 0) 0 true).1 "a@X.com" "longenough1" 2 =
      .ok (_create_token (lowerString "A@x.com") 2) :=
  register_case_insensitive_spec ⟨[], []⟩ "A@x.com" "a@X.com" "longenough1"
    "longenough2" (List.replicate 16 0) [] 0 1 2 true (by decide) (by decide)
    (by decide) (by decide) rfl

/-- Witness for C6: the same "Invalid credentials" error for an unknown
email and for a wrong password, and a successful login otherwise. -/
theorem login_uniform_invalid_credentials_witness :
    login ⟨[], []⟩ "amy@x.com" "pw" 0 = .error ⟨401, "Invalid credentials"⟩ ∧
    login ⟨[("amy@x.com", ⟨"00", ""⟩)], []⟩ "amy@x.com" "pw" 0 =
      .error ⟨401, "Invalid credentials"⟩ ∧
    login ⟨[("amy@x.com", _hash_password "longenough1" (List.replicate 16 0))], []⟩
        "amy@x.com" "longenough1" 0 =
      .ok (_create_token (lowerString "amy@x.com") 0) := by
  have hlow : lowerString "amy@x.com" = "amy@x.com" := by decide
  have hlk : List.lookup (lowerString "amy@x.com")
      [("amy@x.com", _hash_password "longenough1" (List.replicate 16 0))] =
      some (_hash_password "longenough1" (List.replicate 16 0)) := by
    rw [hlow, lookup_cons_self]
  have hlk0 : List.lookup (lowerString "amy@x.com")
      [(("amy@x.com" : String), (⟨"00", ""⟩ : Cred))] = some ⟨"00", ""⟩ := by
    rw [hlow, lookup_cons_self]
  exact ⟨(login_uniform_invalid_credentials ⟨[], []⟩ "amy@x.com" "pw" 0).1 rfl,
    (login_uniform_invalid_credentials _ "amy@x.com" "pw" 0).2.1 ⟨"00", ""⟩ hlk0
      (verify_empty_hash_false "pw" "00"),
    (login_uniform_invalid_credentials _ "amy@x.com" "longenough1" 0).2.2
      (_hash_password "longenough1" (List.replicate 16 0)) hlk
      (verify_hash_roundtrip "longenough1" (List.replicate 16 0) (by decide))⟩

/-- Witness for C8: a disk-failing registration on an empty store
returns the 500 server error and no token. -/
theorem register_disk_failure_spec_witness :
    (register_user ⟨[], []⟩ "amy@x.com" "longenough1"
        (List.replicate 16 0) 0 false).2 =
      .error ⟨500, "Internal Server Error"⟩ ∧
    (register_user ⟨[], []⟩ "amy@x.com" "longenough1"
        (List.replicate 16 0) 0 false).2 ≠ .ok (_create_token "amy@x.com" 0) := by
  have h := register_disk_failure_spec ⟨[], []⟩ "amy@x.com" "longenough1"
    (List.replicate 16 0) 0 (by decide) rfl
  exact ⟨h.1, h.2 (_create_token "amy@x.com" 0)⟩

/-- C4: token decoding fails with 401 "Invalid token" when the token is
structurally malformed or its signature does not verify, fails with 401
"Token expired" when the signature verifies but the exp claim has
passed, fails with 401 "Invalid token payload" when the required sub
claim is absent or empty, and returns a subject only for a well-formed,
correctly signed, unexpired token carrying exactly that subject. -/
theorem decode_token_spec (t : JwtToken) (now : Int) :
    ((t.wellFormed = false ∨ t.sigValid = false) →
      _decode_token t now = .error ⟨401, "Invalid token"⟩) ∧
    (∀ e, t.wellFormed = true → t.sigValid = true → t.exp = some e → e ≤ now →
      _decode_token t now = .error ⟨401, "Token expired"⟩) ∧
    (t.wellFormed = true → t.sigValid = true → (∀ e, t.exp = some e → now < e) →
      (t.sub = none ∨ t.sub = some "") →
      _decode_token t now = .error ⟨401, "Invalid token payload"⟩) ∧
    (∀ email, _decode_token t now = .ok email →
      t.wellFormed = true ∧ t.sigValid = true ∧ (∀ e, t.exp = some e → now < e) ∧
      t.sub = some email ∧ email ≠ "") := by
  refine ⟨?_, ?_, ?_, ?_⟩
  · rintro (h | h)
    · simp [_decode_token, jwtDecode, h]
    · cases hwf : t.wellFormed
      · simp [_decode_token, jwtDecode, hwf]
      · simp [_decode_token, jwtDecode, hwf, h]
  · intro e hwf hsv hexp hle
    simp [_decode_token, jwtDecode, hwf, hsv, hexp, hle]
  · intro hwf hsv hexp hsub
    rcases hx : t.exp with _ | e
    · rcases hsub with h | h <;> simp [_decode_token, jwtDecode, hwf, hsv, hx, h]
    · have hlt : now < e := hexp e hx
      have hnle : ¬ e ≤ now := by omega
      rcases hsub with h | h <;>
        simp [_decode_token, jwtDecode, hwf, hsv, hx, hnle, h]
  · intro email hok
    cases hwf : t.wellFormed
    · simp [_decode_token, jwtDecode, hwf] at hok
    · cases hsv : t.sigValid
      · simp [_decode_token, jwtDecode, hwf, hsv] at hok
      · rcases hx : t.exp with _ | e
        · rcases hsub : t.sub with _ | s
          · simp [_decode_token, jwtDecode, hwf, hsv, hx, hsub] at hok
          · by_cases hse : s = ""
            · simp [_decode_token, jwtDecode, hwf, hsv, hx, hsub, hse] at hok
            · simp [_decode_token, jwtDecode, hwf, hsv, hx, hsub, hse] at hok
              subst hok
              exact ⟨rfl, rfl, by simp, rfl, hse⟩
        · by_cases hle : e ≤ now
          · simp [_decode_token, jwtDecode, hwf, hsv, hx, hle] at hok
          · rcases hsub : t.sub with _ | s
            · simp [_decode_token, jwtDecode, hwf, hsv, hx, hle, hsub] at hok
            · by_cases hse : s = ""
              · simp [_decode_token, jwtDecode, hwf, hsv, hx, hle, hsub, hse] at hok
              · simp [_decode_token, jwtDecode, hwf, hsv, hx, hle, hsub, hse] at hok
                subst hok
                refine ⟨rfl, rfl, ?_, rfl, hse⟩
                intro e2 he2
                obtain rfl := Option.some.inj he2
                omega

/-- Witness for C4: a wrong-signature token, an expired token, a token
without a sub claim, and a freshly issued token each behave as stated. -/
theorem decode_token_spec_witness :
    _decode_token ⟨true, false, some "amy@x.com", some 0, some 3600⟩ 0 =
      .error ⟨401, "Invalid token"⟩ ∧
    _decode_token ⟨true, true, some "amy@x.com", some 0, some 3600⟩ 7200 =
      .error ⟨401, "Token expired"⟩ ∧
    _decode_token ⟨true, true, none, some 0, some 3600⟩ 0 =
      .error ⟨401, "Invalid token payload"⟩ ∧
    (_create_token "amy@x.com" 0).sub = some "amy@x.com" :=
  ⟨(decode_token_spec ⟨true, false, some "amy@x.com", some 0, some 3600⟩ 0).1
      (Or.inr rfl),
    (decode_token_spec ⟨true, true, some "amy@x.com", some 0, some 3600⟩ 7200).2.1
      3600 rfl rfl rfl (by decide),
    (decode_token_spec ⟨true, true, none, some 0, some 3600⟩ 0).2.2.1 rfl rfl
      (by intro e he; simp at he; omega) (Or.inl rfl),
    ((decode_token_spec (_create_token "amy@x.com" 0) 0).2.2.2 "amy@x.com"
      rfl).2.2.2.1⟩

/- ---------------------------------------------------------------------
Claim theorems about the credential hasher.
--------------------------------------------------------------------- -/

theorem hash_salt_eq (p : String) (salt : List Nat) :
    (_hash_password p salt).salt = hexEncode salt := rfl

theorem hash_hash_eq (p : String) (salt : List Nat) :
    (_hash_password p salt).hash =
      hexEncode (pbkdf2Sha256 (strBytes p) salt 100000) := rfl

/-- C3 (amended): for every password, verifying it against the salt and
hash produced by hashing it succeeds; and verifying a second password
against that pair fails exactly when the second password derives a
different PBKDF2 digest.  (Universal failure for every distinct password
cannot hold, since the 32-byte digest space is finite — see the
counterexample.) -/
theorem verify_password_spec (p p2 : String) (salt : List Nat)
    (hs : ∀ b ∈ salt, b < 256) :
    _verify_password p (_hash_password p salt).salt (_hash_password p salt).hash =
      true ∧
    (_verify_password p2 (_hash_password p salt).salt (_hash_password p salt).hash =
        false ↔
      pbkdf2Sha256 (strBytes p2) salt 100000 ≠
        pbkdf2Sha256 (strBytes p) salt 100000) := by
  refine ⟨verify_hash_roundtrip p salt hs, ?_⟩
  rw [hash_salt_eq, hash_hash_eq]
  exact verify_eq_false_iff p2 salt _ hs (pbkdf2Sha256_lt _ _ _)

/-- Witness for the amended C3 theorem at a concrete password and salt. -/
theorem verify_password_spec_witness :
    _verify_password "longenough1"
        (_hash_password "longenough1" (List.replicate 16 0)).salt
        (_hash_password "longenough1" (List.replicate 16 0)).hash = true ∧
    (_verify_password "otherpass9"
        (_hash_password "longenough1" (List.replicate 16 0)).salt
        (_hash_password "longenough1" (List.replicate 16 0)).hash = false ↔
      pbkdf2Sha256 (strBytes "otherpass9") (List.replicate 16 0) 100000 ≠
        pbkdf2Sha256 (strBytes "longenough1") (List.replicate 16 0) 100000) :=
  verify_password_spec "longenough1" "otherpass9" (List.replicate 16 0) (by decide)

/-- Passwords of the form a^n, pairwise distinct, used to exhibit a
PBKDF2 collision nonconstructively via the pigeonhole principle. -/
def repeatA (n : Nat) : String := String.mk (List.replicate n 'a')

/-- Digest derived for the n-th candidate password over the all-zero
16-byte salt. -/
def candidateDigest (n : Nat) : List Nat :=
  pbkdf2Sha256 (strBytes (repeatA n)) (List.replicate 16 0) 100000

theorem candidateDigest_length (n : Nat) : (candidateDigest n).length = 32 :=
  pbkdf2Sha256_length _ _ _

theorem candidateDigest_lt (n : Nat) : ∀ b ∈ candidateDigest n, b < 256 :=
  pbkdf2Sha256_lt _ _ _

theorem byteCode_candidateDigest_lt (n : Nat) :
    byteCode (candidateDigest n) < 256 ^ 32 := by
  have h := byteCode_lt (candidateDigest n) (candidateDigest_lt n)
  rwa [candidateDigest_length] at h

/-- Encoding of the n-th candidate digest into the finite space of
32-byte values. -/
def digestCode (n : Nat) : Fin (256 ^ 32) :=
  ⟨byteCode (candidateDigest n), byteCode_candidateDigest_lt n⟩


/-- C3 (counterexample): the claim that verification fails for EVERY
password other than the registered one is false: the derived digest has
exactly 32 bytes, so the map from the infinitely many passwords to
digests cannot be injective (pigeonhole), and some password distinct
from the registered one verifies successfully against its salt and
hash.  The refutation is nonconstructive — no concrete collision is
feasibly exhibitable, which is exactly why the code treats the hash as
collision-resistant in practice. -/
theorem verify_password_injectivity_counterexample :
    ¬ (∀ p p2 : String, p ≠ p2 →
        _verify_password p2 (_hash_password p (List.replicate 16 0)).salt
          (_hash_password p (List.replicate 16 0)).hash = false) := by
  intro hall
  have hsalt : ∀ b ∈ List.replicate 16 0, (b : Nat) < 256 := by decide
  obtain ⟨x, y, hxy, hfeq⟩ := Finite.exists_ne_map_eq_of_infinite digestCode
  unfold digestCode at hfeq
  rw [Fin.mk.injEq] at hfeq
  have hcode := hfeq
  have hdeq : candidateDigest x = candidateDigest y :=
    byteCode_inj _ _ (candidateDigest_lt x) (candidateDigest_lt y)
      (by rw [candidateDigest_length, candidateDigest_length]) hcode
  have hne : repeatA x ≠ repeatA y := by
    intro he
    have hd : List.replicate x 'a' = List.replicate y 'a' := congrArg String.data he
    have hlen := congrArg List.length hd
    simp at hlen
    exact hxy hlen
  have hfalse := hall (repeatA x) (repeatA y) hne
  rw [hash_salt_eq, hash_hash_eq] at hfalse
  rw [verify_eq_false_iff (repeatA y) (List.replicate 16 0)
    (pbkdf2Sha256 (strBytes (repeatA x)) (List.replicate 16 0) 100000)
    hsalt (pbkdf2Sha256_lt _ _ _)] at hfalse
  exact hfalse hdeq.symm

end App
